import Mathlib

/-!
Shallow embedding of the transportrelay backend ride-lifecycle core:
ride data model, visibility sanitizer, lifecycle operations, quota
ledger, chat/document access gates, creation validation and referral
bonuses, with theorems settling the specification claims.
-/

namespace TransportRelay

/-- Ride status as produced by the lifecycle code. The TypeScript union
also lists a `published` literal, but no code path ever assigns it
(creation sets `available`, accept sets `accepted`, updateRideStatus sets
`completed` or `cancelled`), so the reachable statuses are these four. -/
inductive RideStatus
| available
| accepted
| completed
| cancelled
deriving DecidableEq, Repr

inductive CourseType
| normal
| medical
deriving DecidableEq, Repr

inductive MedicalKind
| hospitalisation
| consultation
deriving DecidableEq, Repr

inductive DocsVisibility
| hidden
| visible
deriving DecidableEq, Repr

/-- A document attached to a ride (rows of `ride_documents`). -/
structure RideDocument where
  docId : String
  rideId : Nat
  name : String
  uri : String
  filePath : String
  mimeType : String
  sizeBytes : Nat
  uploadedAt : Nat
deriving DecidableEq, Repr

/-- A ride record as built by `rowToRide` in rides.repository.ts. -/
structure Ride where
  id : Nat
  zone : String
  department : String
  departureDepartment : String
  arrivalDepartment : String
  departureCity : Option String
  arrivalCity : Option String
  distance : String
  exactDistance : String
  publishedAt : Nat
  status : RideStatus
  courseType : CourseType
  medicalType : Option MedicalKind
  stretcherTransport : Bool
  notes : Option String
  scheduledDate : Option String
  departureTime : Option String
  arrivalTime : Option String
  clientName : String
  clientPhone : String
  pickup : String
  destination : String
  documentsVisibility : DocsVisibility
  documents : List RideDocument
  publishedBy : String
  acceptedBy : Option String
  acceptedAt : Option Nat
  completedAt : Option Nat
  createdAt : Nat
  updatedAt : Nat
deriving DecidableEq, Repr

/-- Structured error (`AppError(statusCode, message)`). -/
structure AppError where
  statusCode : Nat
  message : String
deriving DecidableEq, Repr

/-- Splitting a character list on single spaces, with the semantics of
JavaScript `String.prototype.split(' ')`: the empty string yields one
empty field, and adjacent separators yield empty fields. -/
def splitOnSpace : List Char → List (List Char)
  | [] => [[]]
  | c :: rest =>
    match splitOnSpace rest with
    | [] => [[]]
    | w :: ws => if c = ' ' then [] :: w :: ws else (c :: w) :: ws

/-- `RidesService.maskAddress`: show only the first word of an address;
a single-word address becomes fully redacted. -/
def maskAddress (address : String) : String :=
  let words := splitOnSpace address.toList
  if words.length ≤ 1 then "***"
  else String.mk (words.headD [] ++ [' ', '*', '*', '*'])

/-- JavaScript truthiness of the optional `userId` argument: absent or
empty strings are falsy. -/
def truthyId : Option String → Bool
  | none => false
  | some s => decide (s ≠ "")

/-- The full-view condition of `RidesService.sanitizeRideForUser`:
`userId && (publishedBy === userId || acceptedBy === userId ||
status !== 'available')`. -/
def canViewFullData (ride : Ride) (userId : Option String) : Bool :=
  match userId with
  | none => false
  | some uid =>
    decide (uid ≠ "") &&
      (decide (ride.publishedBy = uid) || decide (ride.acceptedBy = some uid) ||
        decide (ride.status ≠ RideStatus.available))

/-- The masked copy built by `sanitizeRideForUser` when the viewer may
not see full data. -/
def maskedRide (ride : Ride) : Ride :=
  { ride with
    clientName := "***"
    clientPhone := "***"
    pickup := maskAddress ride.pickup
    destination := maskAddress ride.destination
    documents :=
      if ride.documentsVisibility = DocsVisibility.visible then ride.documents else [] }

/-- `RidesService.sanitizeRideForUser`. -/
def sanitizeRideForUser (ride : Ride) (userId : Option String) : Ride :=
  if canViewFullData ride userId then ride else maskedRide ride

theorem splitOnSpace_ne_nil (l : List Char) : splitOnSpace l ≠ [] := by
  cases l with
  | nil => simp [splitOnSpace]
  | cons c rest =>
    simp only [splitOnSpace]
    cases h : splitOnSpace rest with
    | nil => simp
    | cons w ws =>
      by_cases hc : c = ' ' <;> simp [hc]

theorem space_not_mem_head (l : List Char) : ' ' ∉ (splitOnSpace l).headD [] := by
  induction l with
  | nil => simp [splitOnSpace]
  | cons c rest ih =>
    simp only [splitOnSpace]
    cases h : splitOnSpace rest with
    | nil => simp
    | cons w ws =>
      rw [h] at ih
      by_cases hc : c = ' '
      · simp [hc]
      · simp only [if_neg hc, List.headD_cons] at ih ⊢
        intro hmem
        rcases List.mem_cons.mp hmem with h1 | h2
        · exact hc h1.symm
        · exact ih h2

theorem splitOnSpace_append_space (w t : List Char) (hw : ' ' ∉ w) :
    splitOnSpace (w ++ ' ' :: t) = w :: splitOnSpace t := by
  induction w with
  | nil =>
    simp only [List.nil_append, splitOnSpace]
    cases h : splitOnSpace t with
    | nil => exact absurd h (splitOnSpace_ne_nil t)
    | cons x xs => simp
  | cons c cs ih =>
    have hc : c ≠ ' ' := fun h => hw (by simp [h])
    have hcs : ' ' ∉ cs := fun h => hw (List.mem_cons_of_mem _ h)
    simp only [List.cons_append, splitOnSpace]
    rw [List.append_eq, ih hcs]
    simp [hc]

theorem maskAddress_idem (s : String) : maskAddress (maskAddress s) = maskAddress s := by
  unfold maskAddress
  by_cases h : (splitOnSpace s.toList).length ≤ 1
  · simp only [if_pos h]
    decide
  · simp only [if_neg h]
    have hhead : ' ' ∉ (splitOnSpace s.toList).headD [] := space_not_mem_head s.toList
    have htl : (String.mk ((splitOnSpace s.toList).headD [] ++ [' ', '*', '*', '*'])).toList
        = (splitOnSpace s.toList).headD [] ++ ' ' :: ['*', '*', '*'] := rfl
    rw [htl, splitOnSpace_append_space _ _ hhead]
    simp [splitOnSpace]

theorem canViewFullData_maskedRide (r : Ride) (v : Option String) :
    canViewFullData (maskedRide r) v = canViewFullData r v := by
  cases v <;> rfl

theorem maskedRide_idem (r : Ride) : maskedRide (maskedRide r) = maskedRide r := by
  unfold maskedRide
  by_cases h : r.documentsVisibility = DocsVisibility.visible <;>
    simp [h, maskAddress_idem]

/-- C9: sanitize is idempotent: sanitizing an already sanitized ride with
the same viewer gives the same value. -/
theorem sanitize_idempotent (r : Ride) (v : Option String) :
    sanitizeRideForUser (sanitizeRideForUser r v) v = sanitizeRideForUser r v := by
  unfold sanitizeRideForUser
  by_cases h : canViewFullData r v = true
  · simp [h]
  · have h2 : canViewFullData (maskedRide r) v = canViewFullData r v :=
      canViewFullData_maskedRide r v
    simp only [Bool.not_eq_true] at h
    simp [h, h2, maskedRide_idem]

/-- C10: sanitize alters at most clientName, clientPhone, pickup,
destination and documents; every other ride field is returned unchanged
to every viewer. -/
theorem sanitize_frame (r : Ride) (v : Option String) :
    (sanitizeRideForUser r v).id = r.id ∧
    (sanitizeRideForUser r v).zone = r.zone ∧
    (sanitizeRideForUser r v).department = r.department ∧
    (sanitizeRideForUser r v).departureDepartment = r.departureDepartment ∧
    (sanitizeRideForUser r v).arrivalDepartment = r.arrivalDepartment ∧
    (sanitizeRideForUser r v).departureCity = r.departureCity ∧
    (sanitizeRideForUser r v).arrivalCity = r.arrivalCity ∧
    (sanitizeRideForUser r v).distance = r.distance ∧
    (sanitizeRideForUser r v).exactDistance = r.exactDistance ∧
    (sanitizeRideForUser r v).publishedAt = r.publishedAt ∧
    (sanitizeRideForUser r v).status = r.status ∧
    (sanitizeRideForUser r v).courseType = r.courseType ∧
    (sanitizeRideForUser r v).medicalType = r.medicalType ∧
    (sanitizeRideForUser r v).stretcherTransport = r.stretcherTransport ∧
    (sanitizeRideForUser r v).notes = r.notes ∧
    (sanitizeRideForUser r v).scheduledDate = r.scheduledDate ∧
    (sanitizeRideForUser r v).departureTime = r.departureTime ∧
    (sanitizeRideForUser r v).arrivalTime = r.arrivalTime ∧
    (sanitizeRideForUser r v).documentsVisibility = r.documentsVisibility ∧
    (sanitizeRideForUser r v).publishedBy = r.publishedBy ∧
    (sanitizeRideForUser r v).acceptedBy = r.acceptedBy ∧
    (sanitizeRideForUser r v).acceptedAt = r.acceptedAt ∧
    (sanitizeRideForUser r v).completedAt = r.completedAt ∧
    (sanitizeRideForUser r v).createdAt = r.createdAt ∧
    (sanitizeRideForUser r v).updatedAt = r.updatedAt := by
  unfold sanitizeRideForUser maskedRide
  by_cases h : canViewFullData r v = true <;> simp [h]

/-- A concrete completed ride with real client data, used to exhibit the
behavior of the sanitizer for an unauthenticated viewer. -/
def exCompletedRide : Ride :=
  { id := 7
    zone := "Paris"
    department := "75"
    departureDepartment := "75"
    arrivalDepartment := "92"
    departureCity := some "Paris"
    arrivalCity := some "Clamart"
    distance := "12 km"
    exactDistance := "12 km"
    publishedAt := 100
    status := RideStatus.completed
    courseType := CourseType.normal
    medicalType := none
    stretcherTransport := false
    notes := none
    scheduledDate := some "2026-01-15"
    departureTime := some "08:30"
    arrivalTime := some "09:30"
    clientName := "Jean Dupont"
    clientPhone := "0601020304"
    pickup := "12 rue Lecourbe Paris"
    destination := "3 avenue Foch Clamart"
    documentsVisibility := DocsVisibility.visible
    documents := []
    publishedBy := "alice"
    acceptedBy := some "bob"
    acceptedAt := some 150
    completedAt := some 200
    createdAt := 100
    updatedAt := 200 }

/-- C1 counterexample: the claim says a ride whose status is not
`available` is returned in full to every viewer, but for an
unauthenticated viewer (no userId) the code masks even a completed
ride: the returned clientName is the redaction token, not the real name. -/
theorem sanitize_anonymous_counterexample :
    exCompletedRide.status ≠ RideStatus.available ∧
    exCompletedRide.clientName = "Jean Dupont" ∧
    (sanitizeRideForUser exCompletedRide none).clientName = "***" := by
  refine ⟨by decide, rfl, rfl⟩

/-- C1 (amended): sanitize returns the full unredacted ride iff the
viewer is present (a nonempty userId) and is the publisher, or the
accepted taker, or the ride status is not `available`; in every other
case it returns a copy with clientName and clientPhone replaced by the
token, pickup and destination masked to their first word plus the token,
and documents emptied when documentsVisibility is `hidden`. -/
theorem sanitize_spec (r : Ride) (v : Option String) :
    ((∃ uid, v = some uid ∧ uid ≠ "" ∧
        (r.publishedBy = uid ∨ r.acceptedBy = some uid ∨ r.status ≠ RideStatus.available)) →
      sanitizeRideForUser r v = r) ∧
    (¬(∃ uid, v = some uid ∧ uid ≠ "" ∧
        (r.publishedBy = uid ∨ r.acceptedBy = some uid ∨ r.status ≠ RideStatus.available)) →
      sanitizeRideForUser r v =
        { r with
          clientName := "***"
          clientPhone := "***"
          pickup := maskAddress r.pickup
          destination := maskAddress r.destination
          documents :=
            if r.documentsVisibility = DocsVisibility.hidden then [] else r.documents }) := by
  have hview : canViewFullData r v = true ↔
      ∃ uid, v = some uid ∧ uid ≠ "" ∧
        (r.publishedBy = uid ∨ r.acceptedBy = some uid ∨ r.status ≠ RideStatus.available) := by
    cases v with
    | none => simp [canViewFullData]
    | some uid =>
      simp only [canViewFullData, Bool.and_eq_true, Bool.or_eq_true, decide_eq_true_eq]
      constructor
      · rintro ⟨h1, h2⟩
        exact ⟨uid, rfl, h1, by tauto⟩
      · rintro ⟨uid2, heq, h1, h2⟩
        cases Option.some.inj heq
        exact ⟨h1, by tauto⟩
  constructor
  · intro h
    unfold sanitizeRideForUser
    simp [hview.mpr h]
  · intro h
    have hfalse : canViewFullData r v = false := by
      cases hcv : canViewFullData r v
      · rfl
      · exact absurd (hview.mp hcv) h
    unfold sanitizeRideForUser maskedRide
    rw [hfalse]
    simp only [Bool.false_eq_true, if_false]
    have hdocs :
        (if r.documentsVisibility = DocsVisibility.visible then r.documents else []) =
          (if r.documentsVisibility = DocsVisibility.hidden then [] else r.documents) := by
      cases h : r.documentsVisibility <;> simp
    rw [hdocs]

/-- C1 witness: both branches of the amended sanitizer theorem applied at
concrete inputs. -/
theorem sanitize_spec_witness :
    sanitizeRideForUser exCompletedRide (some "bob") = exCompletedRide ∧
    (sanitizeRideForUser exCompletedRide none).clientPhone = "***" := by
  constructor
  · exact (sanitize_spec exCompletedRide (some "bob")).1
      ⟨"bob", rfl, by decide, Or.inr (Or.inl rfl)⟩
  · have h := (sanitize_spec exCompletedRide none).2 (by
      rintro ⟨uid, heq, -⟩
      exact Option.noConfusion heq)
    rw [h]

/-- The ride store: rows of the `rides` table. -/
def findById (store : List Ride) (rideId : Nat) : Option Ride :=
  store.find? (fun r => decide (r.id = rideId))

/-- The partial update object passed to `RidesRepository.update`; a
`none` field is absent (`undefined`) and leaves the column unchanged.
Only these five fields are ever passed by the service. -/
structure RideUpdate where
  status : Option RideStatus := none
  acceptedBy : Option String := none
  acceptedAt : Option Nat := none
  completedAt : Option Nat := none
  documentsVisibility : Option DocsVisibility := none
deriving DecidableEq, Repr

/-- Applying an update to one row; `updated_at` is set to the clock. -/
def applyUpdate (r : Ride) (u : RideUpdate) (now : Nat) : Ride :=
  { r with
    status := u.status.getD r.status
    acceptedBy := match u.acceptedBy with | none => r.acceptedBy | some x => some x
    acceptedAt := match u.acceptedAt with | none => r.acceptedAt | some x => some x
    completedAt := match u.completedAt with | none => r.completedAt | some x => some x
    documentsVisibility := u.documentsVisibility.getD r.documentsVisibility
    updatedAt := now }

/-- The UPDATE statement of `RidesRepository.update` applied to the store. -/
def updateStore (store : List Ride) (rideId : Nat) (u : RideUpdate) (now : Nat) : List Ride :=
  store.map (fun r => if r.id = rideId then applyUpdate r u now else r)

/-- `RidesRepository.update`: runs the update and returns the updated row
(none when no row matched). -/
def repoUpdate (store : List Ride) (rideId : Nat) (u : RideUpdate) (now : Nat) :
    List Ride × Option Ride :=
  let s2 := updateStore store rideId u now
  (s2, findById s2 rideId)

/-- The update object built by `RidesService.acceptRide` on success. -/
def acceptUpdate (userId : String) (now : Nat) : RideUpdate :=
  { status := some RideStatus.accepted
    acceptedBy := some userId
    acceptedAt := some now
    documentsVisibility := some DocsVisibility.visible }

/-- `RidesService.acceptRide`. -/
def acceptRide (store : List Ride) (rideId : Nat) (userId : String) (now : Nat) :
    Except AppError (List Ride × Ride) :=
  match findById store rideId with
  | none => Except.error ⟨404, "Ride not found"⟩
  | some ride =>
    if ride.status ≠ RideStatus.available then
      Except.error ⟨400, "Ride is not available"⟩
    else if ride.publishedBy = userId then
      Except.error ⟨400, "Cannot accept your own ride"⟩
    else
      match repoUpdate store rideId (acceptUpdate userId now) now with
      | (_, none) => Except.error ⟨500, "Failed to update ride"⟩
      | (s2, some updated) => Except.ok (s2, updated)

/-- The target statuses accepted by `updateRideStatus` (the request body
is validated to one of these two literals). -/
inductive StatusTarget
| completed
| cancelled
deriving DecidableEq, Repr

def StatusTarget.toRideStatus : StatusTarget → RideStatus
  | StatusTarget.completed => RideStatus.completed
  | StatusTarget.cancelled => RideStatus.cancelled

/-- The update object built by `RidesService.updateRideStatus`:
`completedAt` is set only when the target is `completed`. -/
def statusUpdate (t : StatusTarget) (now : Nat) : RideUpdate :=
  { status := some t.toRideStatus
    completedAt := if t = StatusTarget.completed then some now else none }

/-- `RidesService.updateRideStatus`. -/
def updateRideStatus (store : List Ride) (rideId : Nat) (userId : String)
    (target : StatusTarget) (now : Nat) : Except AppError (List Ride × Ride) :=
  match findById store rideId with
  | none => Except.error ⟨404, "Ride not found"⟩
  | some ride =>
    if ride.publishedBy ≠ userId ∧ ride.acceptedBy ≠ some userId then
      Except.error ⟨403, "Not authorized to update this ride"⟩
    else
      match repoUpdate store rideId (statusUpdate target now) now with
      | (_, none) => Except.error ⟨500, "Failed to update ride"⟩
      | (s2, some updated) => Except.ok (s2, updated)

/-- The DELETE statement of `RidesRepository.delete`. -/
def removeRide (store : List Ride) (rideId : Nat) : List Ride :=
  store.filter (fun r => decide (r.id ≠ rideId))

/-- `RidesService.deleteRide` (the best-effort unlink of document files
is a non-failing side effect and does not affect the result). -/
def deleteRide (store : List Ride) (rideId : Nat) (userId : String) :
    Except AppError (List Ride) :=
  match findById store rideId with
  | none => Except.error ⟨404, "Ride not found"⟩
  | some ride =>
    if ride.publishedBy ≠ userId then
      Except.error ⟨403, "Not authorized to delete this ride"⟩
    else if ride.status = RideStatus.accepted ∨ ride.status = RideStatus.completed then
      Except.error ⟨400, "Cannot delete accepted or completed rides"⟩
    else
      Except.ok (removeRide store rideId)

theorem applyUpdate_id (r : Ride) (u : RideUpdate) (now : Nat) :
    (applyUpdate r u now).id = r.id := rfl

theorem deleteRide_eq_none (store : List Ride) (rideId : Nat) (uid : String)
    (hfind : findById store rideId = none) :
    deleteRide store rideId uid = Except.error ⟨404, "Ride not found"⟩ := by
  unfold deleteRide
  rw [hfind]

theorem deleteRide_eq_some (store : List Ride) (rideId : Nat) (uid : String) (r : Ride)
    (hfind : findById store rideId = some r) :
    deleteRide store rideId uid =
      (if r.publishedBy ≠ uid then Except.error ⟨403, "Not authorized to delete this ride"⟩
       else if r.status = RideStatus.accepted ∨ r.status = RideStatus.completed then
         Except.error ⟨400, "Cannot delete accepted or completed rides"⟩
       else Except.ok (removeRide store rideId)) := by
  unfold deleteRide
  rw [hfind]

theorem findById_updateStore (store : List Ride) (rideId : Nat) (u : RideUpdate) (now : Nat) :
    findById (updateStore store rideId u now) rideId =
      (findById store rideId).map (fun r => applyUpdate r u now) := by
  induction store with
  | nil => rfl
  | cons r rest ih =>
    by_cases h : r.id = rideId
    · simp [findById, updateStore, List.find?, h, applyUpdate_id]
    · simp only [findById, updateStore, List.map_cons, List.find?, if_neg h]
      rw [decide_eq_false h]
      simpa [findById, updateStore] using ih

/-- A concrete available ride published by alice with hidden documents. -/
def exAvailableRide : Ride :=
  { exCompletedRide with
    id := 8
    status := RideStatus.available
    documentsVisibility := DocsVisibility.hidden
    acceptedBy := none
    acceptedAt := none
    completedAt := none }

/-- A concrete cancelled ride published by alice. -/
def exCancelledRide : Ride :=
  { exCompletedRide with id := 9, status := RideStatus.cancelled, completedAt := none }

/-- C2 counterexample: the claim says no call changes the status of a
ride in a terminal state, but updateRideStatus lets the publisher move a
completed ride to cancelled. -/
theorem terminal_escape_counterexample :
    exCompletedRide.status = RideStatus.completed ∧
    (updateRideStatus [exCompletedRide] 7 "alice" StatusTarget.cancelled 300).toOption.map
        (fun p => p.2.status) = some RideStatus.cancelled := by
  exact ⟨rfl, rfl⟩

/-- C2 (amended): a terminal ride never becomes non-terminal: acceptRide
always fails on it with the not-available InvalidTransition error, and
any successful updateRideStatus call leaves the status inside the
terminal set (though it may switch between completed and cancelled). -/
theorem terminal_state_preserved (store : List Ride) (rideId : Nat) (caller : String)
    (target : StatusTarget) (now : Nat) (r : Ride)
    (hfind : findById store rideId = some r)
    (hterm : r.status = RideStatus.completed ∨ r.status = RideStatus.cancelled) :
    acceptRide store rideId caller now = Except.error ⟨400, "Ride is not available"⟩ ∧
    (∀ s2 r2, updateRideStatus store rideId caller target now = Except.ok (s2, r2) →
      (r2.status = RideStatus.completed ∨ r2.status = RideStatus.cancelled)) := by
  constructor
  · unfold acceptRide
    rw [hfind]
    have hne : r.status ≠ RideStatus.available := by
      rcases hterm with h | h <;> simp [h]
    simp [hne]
  · intro s2 r2 hok
    unfold updateRideStatus at hok
    rw [hfind] at hok
    have hok2 : (if r.publishedBy ≠ caller ∧ r.acceptedBy ≠ some caller then
          (Except.error ⟨403, "Not authorized to update this ride"⟩ :
            Except AppError (List Ride × Ride))
        else
          match repoUpdate store rideId (statusUpdate target now) now with
          | (_, none) => Except.error ⟨500, "Failed to update ride"⟩
          | (s3, some updated) => Except.ok (s3, updated)) = Except.ok (s2, r2) := hok
    by_cases hauth : r.publishedBy ≠ caller ∧ r.acceptedBy ≠ some caller
    · rw [if_pos hauth] at hok2
      exact absurd hok2 (by simp)
    · rw [if_neg hauth] at hok2
      have hupd : findById (updateStore store rideId (statusUpdate target now) now) rideId
          = some (applyUpdate r (statusUpdate target now) now) := by
        rw [findById_updateStore, hfind]
        rfl
      simp only [repoUpdate, hupd] at hok2
      rw [Except.ok.injEq, Prod.mk.injEq] at hok2
      rw [← hok2.2]
      cases target
      · exact Or.inl rfl
      · exact Or.inr rfl

/-- C2 witness: the amended theorem applied to a concrete completed ride. -/
theorem terminal_state_preserved_witness :
    findById [exCompletedRide] 7 = some exCompletedRide ∧
    exCompletedRide.status = RideStatus.completed ∧
    acceptRide [exCompletedRide] 7 "carol" 300 = Except.error ⟨400, "Ride is not available"⟩ := by
  refine ⟨rfl, rfl, ?_⟩
  exact (terminal_state_preserved [exCompletedRide] 7 "carol" StatusTarget.cancelled 300
    exCompletedRide rfl (Or.inl rfl)).1

/-- C4 counterexample: the claim says deletion of a cancelled ride fails
with InvalidTransition, but the code only rejects accepted and completed
rides, so the publisher can delete a cancelled ride. -/
theorem delete_cancelled_counterexample :
    exCancelledRide.status = RideStatus.cancelled ∧
    deleteRide [exCancelledRide] 9 "alice" = Except.ok [] := by
  exact ⟨rfl, rfl⟩

/-- C4 (amended): deleteRide succeeds iff the ride exists, the caller
is its publisher, and its status is neither accepted nor completed
(available or cancelled); for accepted and completed rides it fails with
the InvalidTransition error and the store is unchanged. -/
theorem deleteRide_spec (store : List Ride) (rideId : Nat) (uid : String) :
    ((∃ out, deleteRide store rideId uid = Except.ok out) ↔
      ∃ r, findById store rideId = some r ∧ r.publishedBy = uid ∧
        r.status ≠ RideStatus.accepted ∧ r.status ≠ RideStatus.completed) ∧
    (∀ r, findById store rideId = some r → r.publishedBy = uid →
      (r.status = RideStatus.accepted ∨ r.status = RideStatus.completed) →
      deleteRide store rideId uid =
        Except.error ⟨400, "Cannot delete accepted or completed rides"⟩) ∧
    (∀ r, findById store rideId = some r → r.publishedBy = uid →
      r.status ≠ RideStatus.accepted → r.status ≠ RideStatus.completed →
      deleteRide store rideId uid = Except.ok (removeRide store rideId)) := by
  refine ⟨?_, ?_, ?_⟩
  · cases hfind : findById store rideId with
    | none =>
      rw [deleteRide_eq_none store rideId uid hfind]
      simp [hfind]
    | some r =>
      rw [deleteRide_eq_some store rideId uid r hfind]
      by_cases hpub : r.publishedBy = uid
      · by_cases hst : r.status = RideStatus.accepted ∨ r.status = RideStatus.completed
        · rw [if_neg (by simp [hpub]), if_pos hst]
          constructor
          · rintro ⟨out, hout⟩
            exact absurd hout (by simp)
          · rintro ⟨r2, hr2, -, hna, hnc⟩
            cases Option.some.inj hr2
            rcases hst with h | h
            · exact absurd h hna
            · exact absurd h hnc
        · rw [if_neg (by simp [hpub]), if_neg hst]
          push_neg at hst
          constructor
          · intro h
            exact ⟨r, rfl, hpub, hst.1, hst.2⟩
          · intro h
            exact ⟨removeRide store rideId, rfl⟩
      · rw [if_pos (by simp [hpub])]
        constructor
        · rintro ⟨out, hout⟩
          exact absurd hout (by simp)
        · rintro ⟨r2, hr2, hpub2, -⟩
          cases Option.some.inj hr2
          exact absurd hpub2 hpub
  · intro r hfind hpub hst
    rw [deleteRide_eq_some store rideId uid r hfind]
    simp [hpub, hst]
  · intro r hfind hpub hna hnc
    rw [deleteRide_eq_some store rideId uid r hfind]
    have hst : ¬(r.status = RideStatus.accepted ∨ r.status = RideStatus.completed) := by
      rintro (h | h)
      · exact hna h
      · exact hnc h
    simp [hpub, hst]

/-- C4 witness: the amended theorem applied to a concrete available ride
deleted by its publisher, and to an accepted ride. -/
theorem deleteRide_spec_witness :
    findById [exAvailableRide] 8 = some exAvailableRide ∧
    exAvailableRide.publishedBy = "alice" ∧
    deleteRide [exAvailableRide] 8 "alice" = Except.ok [] := by
  refine ⟨rfl, rfl, ?_⟩
  have h := (deleteRide_spec [exAvailableRide] 8 "alice").2.2 exAvailableRide rfl rfl
    (by decide) (by decide)
  simpa [removeRide, exAvailableRide] using h

/-- Subscription status values (`subscriptions.status` CHECK constraint). -/
inductive SubscriptionStatus
| free
| active
| cancelled
| past_due
| expired
deriving DecidableEq, Repr

/-- `STRIPE_CONFIG.FREE_RIDES_PER_MONTH`. -/
def FREE_RIDES_PER_MONTH : Int := 5

/-- The data `SubscriptionsService` reads for one user: the priority
flag, the subscription status, the resolved plan ride limit
(`plan?.rideLimit`, none meaning a null or missing limit), the total
referral bonus sum, and the usage counters of the current month. -/
structure LedgerInput where
  isPriority : Bool
  subStatus : SubscriptionStatus
  planRideLimit : Option Int
  referralBonusSum : Int
  ridesPublishedThisMonth : Int
  ridesAcceptedThisMonth : Int
deriving DecidableEq, Repr

/-- The usage block returned by `getSubscriptionStatus`. -/
structure UsageView where
  ridesPublished : Int
  ridesAccepted : Int
  limit : Option Int
  remaining : Option Int
deriving DecidableEq, Repr

/-- `SubscriptionsService.getSubscriptionStatus`: priority users are
reported as active with unlimited usage; otherwise the effective limit
is the plan limit (defaulting to the free monthly allowance) plus the
referral bonus sum, and active subscribers see null limits. -/
def getSubscriptionStatus (u : LedgerInput) : SubscriptionStatus × UsageView :=
  if u.isPriority then
    (SubscriptionStatus.active, ⟨0, 0, none, none⟩)
  else
    let acceptedRides := u.ridesAcceptedThisMonth
    let baseLimit := u.planRideLimit.getD FREE_RIDES_PER_MONTH
    let referralBonus :=
      if u.subStatus = SubscriptionStatus.active then 0 else u.referralBonusSum
    let effectiveLimit := baseLimit + referralBonus
    (u.subStatus,
      ⟨u.ridesPublishedThisMonth, acceptedRides,
        if u.subStatus = SubscriptionStatus.active then none else some effectiveLimit,
        if u.subStatus = SubscriptionStatus.active then none
        else some (max 0 (effectiveLimit - acceptedRides))⟩)

/-- The display reason produced when the monthly limit is reached. -/
def limitReason (effectiveLimit : Int) : String :=
  "Vous avez atteint la limite de " ++ toString effectiveLimit ++
    " courses acceptées ce mois-ci. Passez à l\x27abonnement pour continuer à accepter des courses."

/-- The result shape of `canPerformRideAction`. -/
structure RideActionResult where
  allowed : Bool
  reason : Option String
  remaining : Option Int
deriving DecidableEq, Repr

/-- `SubscriptionsService.canPerformRideAction`. The JavaScript
expression `usage.limit || FREE_RIDES_PER_MONTH` treats both a null and
a zero limit as falsy, falling back to the default. -/
def canPerformRideAction (u : LedgerInput) : RideActionResult :=
  if u.isPriority then ⟨true, none, none⟩
  else
    let sv := getSubscriptionStatus u
    if sv.1 = SubscriptionStatus.active then ⟨true, none, none⟩
    else
      let effectiveLimit : Int :=
        match sv.2.limit with
        | none => FREE_RIDES_PER_MONTH
        | some l => if l = 0 then FREE_RIDES_PER_MONTH else l
      let acceptedRides := sv.2.ridesAccepted
      if acceptedRides ≥ effectiveLimit then
        ⟨false, some (limitReason effectiveLimit), some 0⟩
      else
        ⟨true, none, some (effectiveLimit - acceptedRides)⟩

/-- A free-plan caller with no bonus whose plan limit is zero. -/
def zeroLimitCaller : LedgerInput :=
  ⟨false, SubscriptionStatus.free, some 0, 0, 0, 0⟩

/-- A free-plan caller with a 3-ride bonus who has used all 8 accepts. -/
def exhaustedBonusCaller : LedgerInput :=
  ⟨false, SubscriptionStatus.free, some 5, 3, 0, 8⟩

/-- C5 counterexample: the claim says a non-priority, non-active user is
denied exactly when the accepted count reaches planRideLimit plus the
bonus sum, but for a plan limit of 0 with no bonus (so an exhausted
allowance of 0) the code falls back to the default limit of 5 and allows
the action. -/
theorem canPerformRideAction_zero_counterexample :
    zeroLimitCaller.ridesAcceptedThisMonth ≥ 0 + zeroLimitCaller.referralBonusSum ∧
    zeroLimitCaller.planRideLimit = some 0 ∧
    (canPerformRideAction zeroLimitCaller).allowed = true ∧
    (canPerformRideAction zeroLimitCaller).remaining = some 5 := by
  refine ⟨by decide, rfl, rfl, rfl⟩

/-- C5 (amended): for a non-priority user whose subscription status is
not active and whose numeric plan limit L plus bonus sum B is nonzero,
the action is denied (with remaining 0 and a display reason) iff the
accepted count reached L + B, and otherwise allowed with remaining
L + B minus the accepted count; when L + B is zero the code instead
falls back to the default limit of 5. -/
theorem canPerformRideAction_spec (u : LedgerInput) (L : Int)
    (hp : u.isPriority = false) (ha : u.subStatus ≠ SubscriptionStatus.active)
    (hL : u.planRideLimit = some L) (hnz : L + u.referralBonusSum ≠ 0) :
    ((canPerformRideAction u).allowed = false ↔
      u.ridesAcceptedThisMonth ≥ L + u.referralBonusSum) ∧
    ((canPerformRideAction u).allowed = false →
      (canPerformRideAction u).remaining = some 0 ∧
        (canPerformRideAction u).reason = some (limitReason (L + u.referralBonusSum))) ∧
    ((canPerformRideAction u).allowed = true →
      (canPerformRideAction u).remaining =
          some (L + u.referralBonusSum - u.ridesAcceptedThisMonth) ∧
        (canPerformRideAction u).reason = none) := by
  have hval : canPerformRideAction u =
      (if u.ridesAcceptedThisMonth ≥ L + u.referralBonusSum then
        ⟨false, some (limitReason (L + u.referralBonusSum)), some 0⟩
      else ⟨true, none, some (L + u.referralBonusSum - u.ridesAcceptedThisMonth)⟩) := by
    unfold canPerformRideAction getSubscriptionStatus
    simp only [hp, Bool.false_eq_true, if_false, if_neg ha, hL, Option.getD_some, if_neg hnz]
  rw [hval]
  by_cases hc : u.ridesAcceptedThisMonth ≥ L + u.referralBonusSum
  · rw [if_pos hc]
    refine ⟨by simpa using hc, fun h => ⟨rfl, rfl⟩, fun h => absurd h (by simp)⟩
  · rw [if_neg hc]
    refine ⟨by simpa using hc, fun h => absurd h (by simp), fun h => ⟨rfl, rfl⟩⟩

/-- C5 witness: the amended theorem applied to the exhausted caller with
a bonus: plan limit 5, bonus 3, 8 accepted rides is denied with
remaining 0. -/
theorem canPerformRideAction_spec_witness :
    (canPerformRideAction exhaustedBonusCaller).allowed = false ∧
    (canPerformRideAction exhaustedBonusCaller).remaining = some 0 := by
  have h := canPerformRideAction_spec exhaustedBonusCaller 5 rfl (by decide) rfl (by decide)
  have hfalse : (canPerformRideAction exhaustedBonusCaller).allowed = false :=
    h.1.mpr (by decide)
  exact ⟨hfalse, (h.2.1 hfalse).1⟩

/-- The outcome of the PATCH accept route: the quota middleware may
reject with a 403 limit-reached payload before the service runs; the
service itself throws AppError or returns the updated ride. -/
inductive AcceptOutcome
| limitRejected (reason : Option String) (remaining : Option Int)
| failure (e : AppError)
| success (store : List Ride) (ride : Ride)
deriving DecidableEq, Repr

/-- The accept route pipeline: `authenticate, checkRideLimit,
validate, ridesController.acceptRide` — the middleware consults
`canPerformRideAction` first and short-circuits when not allowed. -/
def acceptRideEndpoint (caller : LedgerInput) (store : List Ride) (rideId : Nat)
    (callerId : String) (now : Nat) : AcceptOutcome :=
  let q := canPerformRideAction caller
  if q.allowed = false then AcceptOutcome.limitRejected q.reason q.remaining
  else
    match acceptRide store rideId callerId now with
    | Except.error e => AcceptOutcome.failure e
    | Except.ok (s2, r2) => AcceptOutcome.success s2 r2

/-- The check order of the accept endpoint stated as a decision tree
(the amended claim): quota first, then existence, then availability,
then the self-accept guard. -/
def acceptChecksInOrder (caller : LedgerInput) (store : List Ride) (rideId : Nat)
    (callerId : String) (now : Nat) : AcceptOutcome :=
  let q := canPerformRideAction caller
  if q.allowed = false then AcceptOutcome.limitRejected q.reason q.remaining
  else
    match findById store rideId with
    | none => AcceptOutcome.failure ⟨404, "Ride not found"⟩
    | some r =>
      if r.status ≠ RideStatus.available then
        AcceptOutcome.failure ⟨400, "Ride is not available"⟩
      else if r.publishedBy = callerId then
        AcceptOutcome.failure ⟨400, "Cannot accept your own ride"⟩
      else
        AcceptOutcome.success
          (updateStore store rideId (acceptUpdate callerId now) now)
          (applyUpdate r (acceptUpdate callerId now) now)

theorem acceptRide_eq_none (store : List Ride) (rideId : Nat) (uid : String) (now : Nat)
    (hfind : findById store rideId = none) :
    acceptRide store rideId uid now = Except.error ⟨404, "Ride not found"⟩ := by
  unfold acceptRide
  rw [hfind]

theorem acceptRide_eq_some (store : List Ride) (rideId : Nat) (uid : String) (now : Nat)
    (r : Ride) (hfind : findById store rideId = some r) :
    acceptRide store rideId uid now =
      (if r.status ≠ RideStatus.available then Except.error ⟨400, "Ride is not available"⟩
       else if r.publishedBy = uid then Except.error ⟨400, "Cannot accept your own ride"⟩
       else Except.ok
         (updateStore store rideId (acceptUpdate uid now) now,
          applyUpdate r (acceptUpdate uid now) now)) := by
  unfold acceptRide
  rw [hfind]
  show (if r.status ≠ RideStatus.available then
      (Except.error ⟨400, "Ride is not available"⟩ : Except AppError (List Ride × Ride))
    else if r.publishedBy = uid then Except.error ⟨400, "Cannot accept your own ride"⟩
    else
      match repoUpdate store rideId (acceptUpdate uid now) now with
      | (_, none) => Except.error ⟨500, "Failed to update ride"⟩
      | (s2, some updated) => Except.ok (s2, updated)) = _
  by_cases hs : r.status ≠ RideStatus.available
  · rw [if_pos hs, if_pos hs]
  · rw [if_neg hs, if_neg hs]
    by_cases hp : r.publishedBy = uid
    · rw [if_pos hp, if_pos hp]
    · rw [if_neg hp, if_neg hp]
      have hupd : findById (updateStore store rideId (acceptUpdate uid now) now) rideId
          = some (applyUpdate r (acceptUpdate uid now) now) := by
        rw [findById_updateStore, hfind]
        rfl
      simp only [repoUpdate, hupd]

/-- C3 counterexample: a caller with exhausted quota who targets a
nonexistent ride receives the quota rejection, not NotFound: the quota
middleware runs before any ride lookup. -/
theorem quota_precedence_counterexample :
    findById ([] : List Ride) 1 = none ∧
    acceptRideEndpoint exhaustedBonusCaller [] 1 "bob" 0 =
      AcceptOutcome.limitRejected (some (limitReason 8)) (some 0) := by
  exact ⟨rfl, rfl⟩

/-- C3 (amended): the accept pipeline checks the quota first (the
middleware), then that the ride exists (NotFound), then that it is
available, then that the caller is not the publisher; a caller with
exhausted quota is rejected with the limit payload regardless of the
target ride. -/
theorem acceptRideEndpoint_order (caller : LedgerInput) (store : List Ride) (rideId : Nat)
    (callerId : String) (now : Nat) :
    acceptRideEndpoint caller store rideId callerId now =
      acceptChecksInOrder caller store rideId callerId now := by
  unfold acceptRideEndpoint acceptChecksInOrder
  by_cases hq : (canPerformRideAction caller).allowed = false
  · rw [if_pos hq, if_pos hq]
  · rw [if_neg hq, if_neg hq]
    cases hfind : findById store rideId with
    | none =>
      rw [acceptRide_eq_none store rideId callerId now hfind]
    | some r =>
      rw [acceptRide_eq_some store rideId callerId now r hfind]
      by_cases hs : r.status ≠ RideStatus.available
      · simp [hs]
      · by_cases hp : r.publishedBy = callerId
        · simp [hs, hp]
        · simp [hs, hp]

/-- The role returned by the chat access gate. -/
inductive ChatRole
| publisher
| taker
deriving DecidableEq, Repr

/-- `validateChatAccess` in chat.service.ts: chat is only available for
rides past the available status, and only to the publisher or taker. -/
def validateChatAccess (store : List Ride) (rideId : Nat) (userId : String) :
    Except AppError ChatRole :=
  match findById store rideId with
  | none => Except.error ⟨404, "Ride not found"⟩
  | some ride =>
    if ride.status = RideStatus.available then
      Except.error ⟨403, "Chat is not available for rides that have not been accepted"⟩
    else if ride.publishedBy = userId then Except.ok ChatRole.publisher
    else if ride.acceptedBy = some userId then Except.ok ChatRole.taker
    else Except.error ⟨403, "You do not have access to this chat"⟩

/-- `DocumentsService.checkDocumentAccess`: the publisher always has
access; the taker needs an accepted or completed ride; and a hidden
documentsVisibility additionally blocks every non-publisher. -/
def checkDocumentAccess (store : List Ride) (rideId : Nat) (userId : Option String) :
    Except AppError Unit :=
  match findById store rideId with
  | none => Except.error ⟨404, "Ride not found"⟩
  | some ride =>
    let isPublisher := truthyId userId && decide (ride.publishedBy = userId.getD "")
    let isTaker := truthyId userId && decide (ride.acceptedBy = some (userId.getD ""))
    let isAccepted :=
      decide (ride.status = RideStatus.accepted) || decide (ride.status = RideStatus.completed)
    if !(truthyId userId) || (!isPublisher && !(isTaker && isAccepted)) then
      Except.error ⟨403, "Not authorized to access these documents"⟩
    else if decide (ride.documentsVisibility = DocsVisibility.hidden) && !isPublisher then
      Except.error ⟨403, "Documents are not yet accessible"⟩
    else Except.ok ()

theorem validateChatAccess_eq_some (store : List Ride) (rideId : Nat) (uid : String)
    (r : Ride) (hfind : findById store rideId = some r) :
    validateChatAccess store rideId uid =
      (if r.status = RideStatus.available then
        Except.error ⟨403, "Chat is not available for rides that have not been accepted"⟩
      else if r.publishedBy = uid then Except.ok ChatRole.publisher
      else if r.acceptedBy = some uid then Except.ok ChatRole.taker
      else Except.error ⟨403, "You do not have access to this chat"⟩) := by
  unfold validateChatAccess
  rw [hfind]

theorem checkDocumentAccess_eq_some (store : List Ride) (rideId : Nat)
    (userId : Option String) (r : Ride) (hfind : findById store rideId = some r) :
    checkDocumentAccess store rideId userId =
      (if !(truthyId userId) ||
          (!(truthyId userId && decide (r.publishedBy = userId.getD "")) &&
            !((truthyId userId && decide (r.acceptedBy = some (userId.getD ""))) &&
              (decide (r.status = RideStatus.accepted) ||
                decide (r.status = RideStatus.completed)))) then
        Except.error ⟨403, "Not authorized to access these documents"⟩
      else if decide (r.documentsVisibility = DocsVisibility.hidden) &&
          !(truthyId userId && decide (r.publishedBy = userId.getD "")) then
        Except.error ⟨403, "Documents are not yet accessible"⟩
      else Except.ok ()) := by
  unfold checkDocumentAccess
  rw [hfind]

/-- C6 counterexample: the claim requires any grant to imply the ride is
no longer available, but the document gate admits the publisher of an
available ride (documents still hidden). -/
theorem docGate_available_counterexample :
    exAvailableRide.status = RideStatus.available ∧
    checkDocumentAccess [exAvailableRide] 8 (some "alice") = Except.ok () := by
  exact ⟨rfl, rfl⟩

/-- C6 (amended): both gates throw NotFound on a missing ride; the chat
gate grants iff the ride is past available and the caller is publisher
or taker; the document gate grants iff the caller id is nonempty and the
caller is the publisher (in any status, bypassing hidden visibility) or
the accepted taker of an accepted or completed ride whose documents are
not hidden. -/
theorem accessGates_spec (store : List Ride) (rideId : Nat) (uid : String) :
    (findById store rideId = none →
      validateChatAccess store rideId uid = Except.error ⟨404, "Ride not found"⟩ ∧
      checkDocumentAccess store rideId (some uid) = Except.error ⟨404, "Ride not found"⟩) ∧
    (∀ r, findById store rideId = some r →
      (((∃ role, validateChatAccess store rideId uid = Except.ok role) ↔
          r.status ≠ RideStatus.available ∧
            (r.publishedBy = uid ∨ r.acceptedBy = some uid)) ∧
        (checkDocumentAccess store rideId (some uid) = Except.ok () ↔
          uid ≠ "" ∧ (r.publishedBy = uid ∨
            (r.acceptedBy = some uid ∧
              (r.status = RideStatus.accepted ∨ r.status = RideStatus.completed) ∧
              r.documentsVisibility ≠ DocsVisibility.hidden))))) := by
  constructor
  · intro hfind
    constructor
    · unfold validateChatAccess
      rw [hfind]
    · unfold checkDocumentAccess
      rw [hfind]
  · intro r hfind
    constructor
    · rw [validateChatAccess_eq_some store rideId uid r hfind]
      by_cases hs : r.status = RideStatus.available
      · simp [hs]
      · by_cases hpub : r.publishedBy = uid
        · simp [hs, hpub]
        · by_cases htk : r.acceptedBy = some uid
          · simp [hs, hpub, htk]
          · simp [hs, hpub, htk]
    · rw [checkDocumentAccess_eq_some store rideId (some uid) r hfind]
      by_cases hu : uid = ""
      · simp [truthyId, hu]
      · by_cases hpub : r.publishedBy = uid
        · by_cases hv : r.documentsVisibility = DocsVisibility.hidden
          · simp [truthyId, hu, hpub, hv]
          · simp [truthyId, hu, hpub, hv]
        · by_cases htk : r.acceptedBy = some uid
          · cases hst : r.status with
            | available => simp [truthyId, hu, hpub, htk, hst]
            | accepted =>
              by_cases hv : r.documentsVisibility = DocsVisibility.hidden
              · simp [truthyId, hu, hpub, htk, hst, hv]
              · simp [truthyId, hu, hpub, htk, hst, hv]
            | completed =>
              by_cases hv : r.documentsVisibility = DocsVisibility.hidden
              · simp [truthyId, hu, hpub, htk, hst, hv]
              · simp [truthyId, hu, hpub, htk, hst, hv]
            | cancelled => simp [truthyId, hu, hpub, htk, hst]
          · simp [truthyId, hu, hpub, htk]

/-- C6 witness: the amended theorem instantiated for the taker of a
concrete completed ride with visible documents: both gates grant. -/
theorem accessGates_spec_witness :
    checkDocumentAccess [exCompletedRide] 7 (some "bob") = Except.ok () ∧
    (∃ role, validateChatAccess [exCompletedRide] 7 "bob" = Except.ok role) := by
  have h := (accessGates_spec [exCompletedRide] 7 "bob").2 exCompletedRide rfl
  constructor
  · exact h.2.mpr ⟨by decide, Or.inr ⟨rfl, Or.inr rfl, by decide⟩⟩
  · exact h.1.mpr ⟨by decide, Or.inr rfl⟩

/-- The create-ride request body. The zod schema declares the first
block of fields; the remaining fields are passed through the body to the
repository unvalidated. -/
structure CreateRideDTO where
  zone : String
  department : String
  distance : String
  courseType : CourseType
  medicalType : Option MedicalKind
  scheduledDate : String
  departureTime : String
  arrivalTime : String
  clientName : String
  clientPhone : String
  pickup : String
  destination : String
  departureDepartment : String
  arrivalDepartment : String
  departureCity : Option String
  arrivalCity : Option String
  stretcherTransport : Bool
  notes : Option String
deriving DecidableEq, Repr

/-- The YYYY-MM-DD pattern of the schema date regex. -/
def matchesDateRegex (s : String) : Bool :=
  match s.toList with
  | [a, b, c, d, e, f, g, h, i, j] =>
    a.isDigit && b.isDigit && c.isDigit && d.isDigit && decide (e = '-') &&
      f.isDigit && g.isDigit && decide (h = '-') && i.isDigit && j.isDigit
  | _ => false

/-- The hour part of the HH:MM regex: [01]?[0-9] or 2[0-3]. -/
def isHourPair (a b : Char) : Bool :=
  ((decide (a = '0') || decide (a = '1')) && b.isDigit) ||
    (decide (a = '2') && (decide ('0' ≤ b) && decide (b ≤ '3')))

/-- The HH:MM pattern of the schema time regex (24h, optional leading
hour digit). -/
def matchesTimeRegex (s : String) : Bool :=
  match s.toList with
  | [a, ':', b, c] => a.isDigit && (decide ('0' ≤ b) && decide (b ≤ '5')) && c.isDigit
  | [a, b, ':', c, d] =>
    isHourPair a b && (decide ('0' ≤ c) && decide (c ≤ '5')) && d.isDigit
  | _ => false

/-- The 2-3 digit department code regex. -/
def matchesDeptRegex (s : String) : Bool :=
  (decide (s.toList.length = 2) || decide (s.toList.length = 3)) &&
    s.toList.all (fun c => c.isDigit)

/-- Acceptance predicate of `createRideSchema`: required bounded string
fields, the date and time formats, and the refinement that a medical
course demands a medical subtype. The converse direction is not checked:
a normal course may carry a medical subtype. -/
def createRideSchemaAccepts (d : CreateRideDTO) : Bool :=
  decide (1 ≤ d.zone.length) && decide (d.zone.length ≤ 255) &&
  matchesDeptRegex d.department &&
  decide (1 ≤ d.distance.length) && decide (d.distance.length ≤ 50) &&
  matchesDateRegex d.scheduledDate &&
  matchesTimeRegex d.departureTime &&
  matchesTimeRegex d.arrivalTime &&
  decide (1 ≤ d.clientName.length) && decide (d.clientName.length ≤ 255) &&
  decide (1 ≤ d.clientPhone.length) && decide (d.clientPhone.length ≤ 20) &&
  decide (1 ≤ d.pickup.length) && decide (d.pickup.length ≤ 500) &&
  decide (1 ≤ d.destination.length) && decide (d.destination.length ≤ 500) &&
  (!(decide (d.courseType = CourseType.medical)) || d.medicalType.isSome)

/-- `RidesRepository.create`: the INSERT of a new ride row: status
available, documents hidden, exact distance copied from the distance,
medicalType stored verbatim. -/
def RidesRepository.create (nextId : Nat) (publishedBy : String) (d : CreateRideDTO)
    (now : Nat) : Ride :=
  { id := nextId
    zone := d.zone
    department := d.departureDepartment
    departureDepartment := d.departureDepartment
    arrivalDepartment := d.arrivalDepartment
    departureCity := d.departureCity
    arrivalCity := d.arrivalCity
    distance := d.distance
    exactDistance := d.distance
    publishedAt := now
    status := RideStatus.available
    courseType := d.courseType
    medicalType := d.medicalType
    stretcherTransport := d.stretcherTransport
    notes := d.notes
    scheduledDate := some d.scheduledDate
    departureTime := some d.departureTime
    arrivalTime := some d.arrivalTime
    clientName := d.clientName
    clientPhone := d.clientPhone
    pickup := d.pickup
    destination := d.destination
    documentsVisibility := DocsVisibility.hidden
    documents := []
    publishedBy := publishedBy
    acceptedBy := none
    acceptedAt := none
    completedAt := none
    createdAt := now
    updatedAt := now }

/-- A fully valid normal-course draft that nevertheless carries a
medical subtype. -/
def exNormalWithMedicalDraft : CreateRideDTO :=
  { zone := "Paris"
    department := "75"
    distance := "10 km"
    courseType := CourseType.normal
    medicalType := some MedicalKind.consultation
    scheduledDate := "2026-01-15"
    departureTime := "08:30"
    arrivalTime := "09:30"
    clientName := "Jean Dupont"
    clientPhone := "0601020304"
    pickup := "12 rue Lecourbe Paris"
    destination := "3 avenue Foch Clamart"
    departureDepartment := "75"
    arrivalDepartment := "92"
    departureCity := some "Paris"
    arrivalCity := some "Clamart"
    stretcherTransport := false
    notes := none }

/-- A fully valid medical-course draft. -/
def exMedicalDraft : CreateRideDTO :=
  { exNormalWithMedicalDraft with
    courseType := CourseType.medical
    medicalType := some MedicalKind.hospitalisation }

/-- C7 counterexample: the claim says validation rejects every draft
violating the biconditional, but a normal-course draft carrying a
medical subtype passes the schema and is stored with a non-null
medicalType. -/
theorem medicalType_normal_counterexample :
    createRideSchemaAccepts exNormalWithMedicalDraft = true ∧
    exNormalWithMedicalDraft.courseType = CourseType.normal ∧
    (RidesRepository.create 1 "alice" exNormalWithMedicalDraft 0).medicalType =
      some MedicalKind.consultation := by
  refine ⟨by decide, rfl, rfl⟩

/-- C7 (amended): validation enforces only the forward direction: a
medical draft must carry a subtype, so every stored medical ride has a
non-null medicalType, and creation copies both fields verbatim; no
update ever mutates courseType or medicalType. The converse (normal
implies null subtype) is not enforced. -/
theorem medicalType_invariant_spec (d : CreateRideDTO) (nextId : Nat) (pub : String)
    (now : Nat) (hvalid : createRideSchemaAccepts d = true) :
    (d.courseType = CourseType.medical →
      (RidesRepository.create nextId pub d now).medicalType ≠ none) ∧
    ((RidesRepository.create nextId pub d now).courseType = d.courseType ∧
      (RidesRepository.create nextId pub d now).medicalType = d.medicalType) ∧
    (∀ r u now2, (applyUpdate r u now2).courseType = r.courseType ∧
      (applyUpdate r u now2).medicalType = r.medicalType) := by
  refine ⟨?_, ⟨rfl, rfl⟩, fun r u now2 => ⟨rfl, rfl⟩⟩
  intro hmed
  unfold createRideSchemaAccepts at hvalid
  simp only [Bool.and_eq_true, Bool.or_eq_true, Bool.not_eq_true, decide_eq_true_eq,
    decide_eq_false_iff_not] at hvalid
  have hlast := hvalid.2
  rcases hlast with h | h
  · have hne : d.courseType ≠ CourseType.medical := by
      intro hc
      rw [hc] at h
      exact absurd h (by decide)
    exact absurd hmed hne
  · show d.medicalType ≠ none
    intro hn
    rw [hn] at h
    exact absurd h (by decide)

/-- C7 witness: the amended theorem at a concrete valid medical draft. -/
theorem medicalType_invariant_spec_witness :
    createRideSchemaAccepts exMedicalDraft = true ∧
    (RidesRepository.create 2 "alice" exMedicalDraft 0).medicalType ≠ none := by
  refine ⟨by decide, ?_⟩
  exact (medicalType_invariant_spec exMedicalDraft 2 "alice" 0 (by decide)).1 rfl

/-- A referral bonus row (`referral_bonuses` table). -/
structure ReferralBonusRow where
  referrerId : String
  referredId : String
  bonusRides : Int
  monthYear : String
deriving DecidableEq, Repr

/-- Whether a (referrer, referred) pair already has a bonus row: the
unique constraint consulted by ON CONFLICT. -/
def hasPair (db : List ReferralBonusRow) (referrerId referredId : String) : Bool :=
  db.any (fun row => decide (row.referrerId = referrerId) && decide (row.referredId = referredId))

/-- `ReferralRepository.createReferralBonus`: INSERT with
ON CONFLICT (referrer_id, referred_id) DO NOTHING. -/
def createReferralBonus (db : List ReferralBonusRow) (referrerId referredId : String)
    (bonusRides : Int) (monthYear : String) : List ReferralBonusRow :=
  if hasPair db referrerId referredId then db
  else db ++ [⟨referrerId, referredId, bonusRides, monthYear⟩]

/-- The free-plan test of `AuthService.register` for the referrer: a
missing subscription row or a row with status free. -/
def isFreePlan : Option SubscriptionStatus → Bool
  | none => true
  | some s => decide (s = SubscriptionStatus.free)

/-- The referral-bonus step of `AuthService.register`: referrerId is the
user owning the submitted referral code (none for the admin seed code);
a 3-ride bonus is credited iff that referrer is on the free plan. -/
def registerAwardBonus (db : List ReferralBonusRow) (referrerId : Option String)
    (referrerSub : Option SubscriptionStatus) (newUserId monthYear : String) :
    List ReferralBonusRow :=
  match referrerId with
  | none => db
  | some rid =>
    if isFreePlan referrerSub then createReferralBonus db rid newUserId 3 monthYear
    else db

/-- The bonus rows stored for one (referrer, referred) pair. -/
def pairRows (db : List ReferralBonusRow) (referrerId referredId : String) :
    List ReferralBonusRow :=
  db.filter (fun row => decide (row.referrerId = referrerId) && decide (row.referredId = referredId))

theorem pairRows_nil_of_not_hasPair (db : List ReferralBonusRow) (a b : String)
    (h : hasPair db a b = false) : pairRows db a b = [] := by
  unfold hasPair at h
  unfold pairRows
  rw [List.filter_eq_nil_iff]
  intro row hrow
  rw [List.any_eq_false] at h
  exact fun hc => (h row hrow) hc

/-- C8: for every (referrer, referred) pair at most one bonus row ever
exists and repeating the insert leaves the table unchanged; the register
step creates a bonus exactly when a referrer was resolved from a valid
code and is on the free plan and the pair is new, and the created row
carries a credit of exactly 3 rides. -/
theorem referralBonus_spec (db : List ReferralBonusRow) (a b x y m m2 nu : String)
    (n n2 : Int) (sub : Option SubscriptionStatus) :
    (createReferralBonus (createReferralBonus db a b n m) a b n2 m2 =
      createReferralBonus db a b n m) ∧
    ((pairRows db a b).length ≤ 1 →
      (pairRows (createReferralBonus db x y n m) a b).length ≤ 1) ∧
    (registerAwardBonus db none sub nu m = db) ∧
    (∀ rid, registerAwardBonus db (some rid) sub nu m =
      (if isFreePlan sub = true ∧ hasPair db rid nu = false
       then db ++ [⟨rid, nu, 3, m⟩] else db)) := by
  refine ⟨?_, ?_, rfl, ?_⟩
  · unfold createReferralBonus
    by_cases h : hasPair db a b = true
    · simp [h]
    · have h2 : hasPair db a b = false := by simpa using h
      simp only [h2, Bool.false_eq_true, if_false]
      have h3 : hasPair (db ++ [⟨a, b, n, m⟩]) a b = true := by
        simp [hasPair]
      simp [h3]
  · intro hlen
    unfold createReferralBonus
    by_cases h : hasPair db x y = true
    · simpa [h] using hlen
    · have h2 : hasPair db x y = false := by simpa using h
      simp only [h2, Bool.false_eq_true, if_false]
      unfold pairRows
      rw [List.filter_append]
      by_cases hxy : x = a ∧ y = b
      · obtain ⟨hx, hy⟩ := hxy
        subst hx
        subst hy
        have hnil : pairRows db x y = [] := pairRows_nil_of_not_hasPair db x y h2
        unfold pairRows at hnil
        rw [hnil]
        simp
      · have hpa : (decide (x = a) && decide (y = b)) = false := by
          rcases not_and_or.mp hxy with h | h
          · simp [h]
          · simp [h]
        have hfil : List.filter
            (fun row => decide (row.referrerId = a) && decide (row.referredId = b))
            [(⟨x, y, n, m⟩ : ReferralBonusRow)] = [] := by
          simp [List.filter_singleton, hpa]
        rw [hfil, List.append_nil]
        exact hlen
  · intro rid
    unfold registerAwardBonus createReferralBonus
    by_cases hf : isFreePlan sub = true
    · by_cases hp : hasPair db rid nu = true
      · simp [hf, hp]
      · have hp2 : hasPair db rid nu = false := by simpa using hp
        simp [hf, hp2]
    · have hf2 : isFreePlan sub = false := by simpa using hf
      simp [hf2]

/-- C8 witness: the spec applied at a concrete pair: inserting the bonus
twice equals inserting it once, and the pair still has at most one row. -/
theorem referralBonus_spec_witness :
    createReferralBonus (createReferralBonus [] "rachel" "uma" 3 "2026-01")
        "rachel" "uma" 3 "2026-02" =
      createReferralBonus [] "rachel" "uma" 3 "2026-01" ∧
    (pairRows (createReferralBonus [] "rachel" "uma" 3 "2026-01") "rachel" "uma").length ≤ 1 := by
  have h := referralBonus_spec [] "rachel" "uma" "rachel" "uma" "2026-01" "2026-02" "uma"
    3 3 none
  exact ⟨h.1, h.2.1 (by decide)⟩

end TransportRelay
